import Mathlib

/-!
Shallow embedding of the umbrel-balancebridge server core
(`src/umbrel-balancebridge/app/server/src/{electrs,xpub,nostr_handler}.rs`).

Machine integers (`u64`) are modelled as `Nat` with explicit saturation at
`2^64 - 1` where the source uses `saturating_add`.  Fallible Rust code
(`Result`) is modelled with `Except String`.  `Instant` is modelled as a
`Nat` millisecond clock.  Network / backend effects are modelled as oracle
functions supplied as parameters, and the physical calls a function issues
are returned as an explicit trace list.
-/

namespace BalanceBridge

/-- `u64::MAX` as a natural number. -/
def U64MAX : Nat := 2 ^ 64 - 1

/-- `u64::saturating_add`, on the `Nat` model. -/
def satAdd (a b : Nat) : Nat := min (a + b) U64MAX

/-- Saturating sum of a list of values (the value `u64::saturating_add`
folding reaches, in closed form). -/
def satSum (l : List Nat) : Nat := min l.sum U64MAX

/-- One unspent output as returned by `script_list_unspent`
(`value: u64`, `height: usize`). -/
structure Utxo where
  value : Nat
  height : Nat
deriving DecidableEq, Repr

/-- The electrum backend surface used by the blocking lookups, as an
oracle: address parsing (Rust `Address::from_str` + `require_network`,
producing the script), script history, and script UTXO listing. -/
structure Backend where
  parse_address : String → Except String String
  script_get_history : String → Except String (List String)
  script_list_unspent : String → Except String (List Utxo)

/-- A physical electrum RPC call, recorded in traces. -/
inductive Call where
  | history (script : String)
  | listUnspent (script : String)
deriving DecidableEq, Repr

/-- The body of the UTXO summing loop in `get_address_balance_blocking`:
`height > 0` adds to confirmed, otherwise to unconfirmed, both saturating. -/
def sumStep (acc : Nat × Nat) (u : Utxo) : Nat × Nat :=
  if u.height > 0 then (satAdd acc.1 u.value, acc.2) else (acc.1, satAdd acc.2 u.value)

/-- `get_address_balance_blocking` from `electrs.rs`: resolve the address
to a script, fetch the history; empty history short-circuits to `(0, 0)`;
otherwise list the UTXOs and sum them by the height convention.  The first
component is the trace of physical calls issued. -/
def get_address_balance_blocking (b : Backend) (address : String) :
    List Call × Except String (Nat × Nat) :=
  match b.parse_address address with
  | .error e => ([], .error e)
  | .ok script =>
    match b.script_get_history script with
    | .error e => ([.history script], .error e)
    | .ok hist =>
      if hist.isEmpty then ([.history script], .ok (0, 0))
      else
        match b.script_list_unspent script with
        | .error e => ([.history script, .listUnspent script], .error e)
        | .ok utxos =>
          ([.history script, .listUnspent script], .ok (utxos.foldl sumStep (0, 0)))

/-- `get_address_txs_blocking` from `electrs.rs`: resolve the address and
map the script history to transaction hashes. -/
def get_address_txs_blocking (b : Backend) (address : String) :
    List Call × Except String (List String) :=
  match b.parse_address address with
  | .error e => ([], .error e)
  | .ok script =>
    match b.script_get_history script with
    | .error e => ([.history script], .error e)
    | .ok hist => ([.history script], .ok hist)

/-- `check_cooldown` from `electrs.rs`: given the current clock (ms) and the
stored `cooldown_until`, fail with the remaining milliseconds while the
deadline is in the future, otherwise lazily clear an expired deadline.
Returns the updated state and the result. -/
def check_cooldown (now : Nat) (cd : Option Nat) : Option Nat × Except Nat Unit :=
  match cd with
  | some u => if now < u then (some u, .error (u - now)) else (none, .ok ())
  | none => (none, .ok ())

/-- `set_cooldown` from `electrs.rs`: unconditionally store
`now + seconds`, in milliseconds. -/
def set_cooldown (now seconds : Nat) : Option Nat := some (now + seconds * 1000)

/-- Outcome of one `timeout(_, spawn_blocking(..))` attempt, as decided by
the environment: the timer fired, the spawned task failed to join, or the
blocking function completed with its `Result`. -/
inductive AttemptOutcome (α : Type) where
  | timedOut
  | joinErr (msg : String)
  | completed (r : Except String α)
deriving Repr

/-- Environment of one `get_address_balance` call: the clock at the two
cooldown checks, the clock when each timeout cooldown would be set, and the
outcome of each of the two 90-second attempts. -/
structure BalanceEnv where
  now0 : Nat
  now1 : Nat
  tSet1 : Nat
  tSet2 : Nat
  attempt1 : AttemptOutcome (Nat × Nat)
  attempt2 : AttemptOutcome (Nat × Nat)

/-- Result of `get_address_balance`, one constructor per distinct `anyhow`
error shape in the source. -/
inductive BalResult where
  | ok (v : Nat × Nat)
  | coolingDown (remainingMs : Nat)
  | balanceError (msg : String)
  | joinError (msg : String)
  | balanceErrorRetry (msg : String)
  | joinErrorRetry (msg : String)
  | timeoutAfterRetry
deriving DecidableEq, Repr

/-- Observable actions of the async wrappers: running one blocking attempt
under a deadline (in seconds), and setting a cooldown (in seconds). -/
inductive Ev where
  | runAttempt (deadlineSecs : Nat)
  | setCooldown (secs : Nat)
deriving DecidableEq, Repr

/-- `get_address_balance` from `electrs.rs` (control-flow model): cooldown
check, gate acquisition (serialisation is modelled separately), cooldown
re-check, a first 90 s attempt, and on timeout a 10 s cooldown plus exactly
one retry under a fresh 90 s deadline; a second timeout sets a 20 s cooldown
and fails.  Returns the final cooldown state, the result, and the trace. -/
def get_address_balance (cd : Option Nat) (env : BalanceEnv) :
    Option Nat × BalResult × List Ev :=
  match check_cooldown env.now0 cd with
  | (cd1, .error r) => (cd1, .coolingDown r, [])
  | (cd1, .ok ()) =>
    match check_cooldown env.now1 cd1 with
    | (cd2, .error r) => (cd2, .coolingDown r, [])
    | (cd2, .ok ()) =>
      match env.attempt1 with
      | .completed (.ok v) => (cd2, .ok v, [.runAttempt 90])
      | .completed (.error m) => (cd2, .balanceError m, [.runAttempt 90])
      | .joinErr m => (cd2, .joinError m, [.runAttempt 90])
      | .timedOut =>
        let cd3 := set_cooldown env.tSet1 10
        match env.attempt2 with
        | .completed (.ok v) =>
            (cd3, .ok v, [.runAttempt 90, .setCooldown 10, .runAttempt 90])
        | .completed (.error m) =>
            (cd3, .balanceErrorRetry m, [.runAttempt 90, .setCooldown 10, .runAttempt 90])
        | .joinErr m =>
            (cd3, .joinErrorRetry m, [.runAttempt 90, .setCooldown 10, .runAttempt 90])
        | .timedOut =>
            (set_cooldown env.tSet2 20, .timeoutAfterRetry,
              [.runAttempt 90, .setCooldown 10, .runAttempt 90, .setCooldown 20])

/-- Environment of one `get_address_txs` call: clocks for the two cooldown
checks, the clock at a timeout cooldown, and the single 45 s attempt. -/
structure TxsEnv where
  now0 : Nat
  now1 : Nat
  tSet1 : Nat
  attempt : AttemptOutcome (List String)

/-- Result of `get_address_txs`. -/
inductive TxsResult where
  | ok (v : List String)
  | coolingDown (remainingMs : Nat)
  | txError (msg : String)
  | joinError (msg : String)
  | historyTimeout
deriving DecidableEq, Repr

/-- `get_address_txs` from `electrs.rs` (control-flow model): same
admission/cooldown protocol, a single 45 s attempt, no retry; a timeout
sets a 10 s cooldown and fails. -/
def get_address_txs (cd : Option Nat) (env : TxsEnv) :
    Option Nat × TxsResult × List Ev :=
  match check_cooldown env.now0 cd with
  | (cd1, .error r) => (cd1, .coolingDown r, [])
  | (cd1, .ok ()) =>
    match check_cooldown env.now1 cd1 with
    | (cd2, .error r) => (cd2, .coolingDown r, [])
    | (cd2, .ok ()) =>
      match env.attempt with
      | .completed (.ok v) => (cd2, .ok v, [.runAttempt 45])
      | .completed (.error m) => (cd2, .txError m, [.runAttempt 45])
      | .joinErr m => (cd2, .joinError m, [.runAttempt 45])
      | .timedOut =>
          (set_cooldown env.tSet1 10, .historyTimeout, [.runAttempt 45, .setCooldown 10])

/-! ### `xpub.rs` — address derivation -/

/-- Per-chain derivation loop of `derive_addresses`: for successive indices
(up to the gap limit, the fuel) apply the per-index derivation oracle,
appending on `Ok` and stopping the chain on the first `Err`.  The oracle is
shifted by one on recursion so that the head always queries index 0. -/
def deriveChain (f : Nat → Except String String) : Nat → List String
  | 0 => []
  | fuel + 1 =>
    match f 0 with
    | .ok a => a :: deriveChain (fun j => f (j + 1)) fuel
    | .error _ => []

/-- Index of the first derivation failure below the fuel bound (the fuel
itself when every index succeeds). -/
def stopIdx (f : Nat → Except String String) : Nat → Nat
  | 0 => 0
  | fuel + 1 =>
    match f 0 with
    | .ok _ => stopIdx (fun j => f (j + 1)) fuel + 1
    | .error _ => 0

/-- The address held by an `Ok` derivation outcome (dummy on `Err`). -/
def okVal : Except String String → String
  | .ok a => a
  | .error _ => ""

/-- Whether a derivation outcome is `Ok`. -/
def exOk : Except String String → Bool
  | .ok _ => true
  | .error _ => false

/-- Oracle model of one extended key for `derive_addresses`: the
`Xpub::from_str` parse outcome and the per-(chain, index) child derivation
(`derive_address_from_path` at path `m/chain/index`).  Network detection
(`detect_network`) never fails in the source and does not affect the claims
modelled here. -/
structure XpubModel where
  parse : Except String Unit
  deriveAt : Nat → Nat → Except String String

/-- `derive_addresses` from `xpub.rs`: parse the key, then derive the
external chain (`m/0/i`) and the internal chain (`m/1/i`), each for indices
`0 .. gap_limit` stopping that chain on its first failure, and concatenate
external then internal. -/
def derive_addresses (m : XpubModel) (gap_limit : Nat) : Except String (List String) :=
  match m.parse with
  | .error _ => .error "Failed to parse extended public key"
  | .ok _ => .ok (deriveChain (m.deriveAt 0) gap_limit ++ deriveChain (m.deriveAt 1) gap_limit)

/-- `str::starts_with` modelled on the char list (byte-prefix and
char-prefix agree for UTF-8 strings). -/
def startsWithB (s p : String) : Bool := List.isPrefixOf p.data s.data

/-- `is_xpub` from `xpub.rs`. -/
def is_xpub (query : String) : Bool :=
  startsWithB query "xpub" || startsWithB query "ypub" ||
    startsWithB query "zpub" || startsWithB query "tpub"

/-- `is_bitcoin_address` from `xpub.rs`. -/
def is_bitcoin_address (query : String) : Bool :=
  startsWithB query "1" || startsWithB query "3" ||
    startsWithB query "bc1" || startsWithB query "tb1"

/-! ### `nostr_handler.rs` — orchestrator (`perform_lookup`) -/

/-- The `ElectrsClient` surface `perform_lookup` calls through the gate, as
an oracle of per-address outcomes. -/
structure LookupClient where
  balance : String → Except String (Nat × Nat)
  txs : String → Except String (List String)

/-- One call through the backend gate, recorded in traces. -/
inductive GateCall where
  | balanceCall (addr : String)
  | txsCall (addr : String)
deriving DecidableEq, Repr

/-- `LookupResult` from `nostr_handler.rs`. -/
structure LookupResult where
  confirmed_balance : Nat
  unconfirmed_balance : Nat
  transactions : List String
deriving DecidableEq, Repr

/-- `HashSet::insert` on the insertion-ordered list model of the txid set:
append only when absent. -/
def insertTx (s : List String) (t : String) : List String :=
  if t ∈ s then s else s ++ [t]

/-- One iteration of the xpub aggregation loop in `perform_lookup`: a
successful balance call adds saturating into the totals, a successful txs
call inserts every id into the set; failures of either are skipped. -/
def xpubStep (lk : LookupClient) (acc : Nat × Nat × List String) (addr : String) :
    Nat × Nat × List String :=
  let bal := match lk.balance addr with
    | .ok (c, u) => (satAdd acc.1 c, satAdd acc.2.1 u)
    | .error _ => (acc.1, acc.2.1)
  let ts := match lk.txs addr with
    | .ok l => l.foldl insertTx acc.2.2
    | .error _ => acc.2.2
  (bal.1, bal.2, ts)

/-- Lexicographic comparison of char lists by code point (the order
`Ord for String` uses in Rust, since UTF-8 byte order and code-point order
agree). -/
def charsLe : List Char → List Char → Bool
  | [], _ => true
  | _ :: _, [] => false
  | c :: cs, d :: ds =>
    if c.toNat < d.toNat then true
    else if d.toNat < c.toNat then false
    else charsLe cs ds

/-- Lexicographic order on strings. -/
def strLe (a b : String) : Bool := charsLe a.data b.data

/-- Insertion of one string into a lexicographically sorted list. -/
def insertSorted (x : String) : List String → List String
  | [] => [x]
  | y :: ys => if strLe x y then x :: y :: ys else y :: insertSorted x ys

/-- `Vec::sort` on the txid list (strings, lexicographic order), modelled
as insertion sort. -/
def sortStrings (l : List String) : List String := l.foldr insertSorted []

/-- `perform_lookup` from `nostr_handler.rs`: an xpub query derives 20
addresses per chain and aggregates per-address results, skipping
per-address failures; a plain address query does a single balance call and
returns an empty transaction list; anything else is `invalid_query`.  The
first component is the trace of gate calls issued. -/
def perform_lookup (deriveM : String → Nat → Except String (List String))
    (lk : LookupClient) (query : String) :
    List GateCall × Except String LookupResult :=
  if is_xpub query then
    match deriveM query 20 with
    | .error _ => ([], .error "Failed to derive addresses from xpub")
    | .ok addresses =>
      let final := addresses.foldl (xpubStep lk) (0, 0, [])
      (addresses.flatMap (fun a => [.balanceCall a, .txsCall a]),
        .ok ⟨final.1, final.2.1, sortStrings final.2.2⟩)
  else if is_bitcoin_address query then
    match lk.balance query with
    | .ok (c, u) => ([.balanceCall query], .ok ⟨c, u, []⟩)
    | .error e => ([.balanceCall query], .error e)
  else ([], .error "invalid_query")

/-! ### `nostr_handler.rs` — event handling and publication -/

/-- An incoming nostr event, restricted to the fields `handle_event`
inspects: kind, sender public key (hex), tag vectors, and content. -/
structure NEvent where
  kind : Nat
  pubkey : String
  tags : List (List String)
  content : String
deriving DecidableEq, Repr

/-- `get_tag` from `nostr_handler.rs`: first tag vector of length ≥ 2 whose
head is the key yields its second entry. -/
def tagValue (key : String) : List (List String) → Option String
  | [] => none
  | t :: ts =>
    match t with
    | k :: v :: _ => if k = key then some v else tagValue key ts
    | _ => tagValue key ts

/-- `get_tag` on an event. -/
def get_tag (e : NEvent) (key : String) : Option String := tagValue key e.tags

/-- `has_tag` from `nostr_handler.rs`: some tag vector of length ≥ 2 equals
`(key, value)` on its first two entries. -/
def hasTagL (key value : String) : List (List String) → Bool
  | [] => false
  | t :: ts =>
    match t with
    | k :: v :: _ => if k = key ∧ v = value then true else hasTagL key value ts
    | _ => hasTagL key value ts

/-- `has_tag` on an event. -/
def has_tag (e : NEvent) (key value : String) : Bool := hasTagL key value e.tags

/-- `str::trim` modelled on the char list: drop whitespace from both
ends. -/
def trimStr (s : String) : String :=
  ⟨((s.data.dropWhile Char.isWhitespace).reverse.dropWhile Char.isWhitespace).reverse⟩

/-- `LookupRequest` from `nostr_handler.rs` (the deserialized payload). -/
structure LookupRequest where
  typ : String
  query : String
deriving DecidableEq, Repr

/-- `LookupResponse` from `nostr_handler.rs`. -/
structure LookupResponse where
  typ : String
  status : String
  req : String
  result : Option LookupResult
  error : Option String
deriving DecidableEq, Repr

/-- The request kind constant. -/
def BALANCEBRIDGE_REQUEST_KIND : Nat := 30078

/-- The response kind constant. -/
def BALANCEBRIDGE_RESPONSE_KIND : Nat := 30079

/-- An event published by `publish_response`: response kind, the two `p`
tags (requester then server), the `req` tag value, and the payload. -/
structure Published where
  kind : Nat
  p_tags : List String
  req_tag : String
  payload : LookupResponse
deriving DecidableEq, Repr

/-- `publish_response` from `nostr_handler.rs`: build the kind-30079 event
with `p` tags for the requester and the server and a `req` tag echoing the
request id. -/
def publish_response (serverPk android req_id : String) (resp : LookupResponse) :
    Published :=
  { kind := BALANCEBRIDGE_RESPONSE_KIND, p_tags := [android, serverPk],
    req_tag := req_id, payload := resp }

/-- `send_ok` from `nostr_handler.rs`. -/
def send_ok (serverPk android req_id : String) (result : LookupResult) : Published :=
  publish_response serverPk android req_id
    ⟨"bitcoin_lookup_response", "ok", req_id, some result, none⟩

/-- `send_error` from `nostr_handler.rs`. -/
def send_error (serverPk android req_id msg : String) : Published :=
  publish_response serverPk android req_id
    ⟨"bitcoin_lookup_response", "error", req_id, none, some msg⟩

/-- `handle_event` from `nostr_handler.rs`, returning the list of events it
publishes.  `parse` is the `serde_json::from_str::<LookupRequest>` oracle
and `lookup` the `perform_lookup` outcome oracle.  Wrong kind, missing `p`
tag for the server, or missing `req` tag: silently ignored.  Unparseable
payload, wrong type, or empty query: an error response.  Otherwise the
lookup result or its error is published. -/
def handle_event (serverPk : String) (parse : String → Option LookupRequest)
    (lookup : String → Except String LookupResult) (e : NEvent) : List Published :=
  if e.kind ≠ BALANCEBRIDGE_REQUEST_KIND then []
  else if has_tag e "p" serverPk = false then []
  else
    match get_tag e "req" with
    | none => []
    | some req_id =>
      match parse e.content with
      | none => [send_error serverPk e.pubkey req_id "invalid_json"]
      | some req =>
        if req.typ ≠ "bitcoin_lookup" then
          [send_error serverPk e.pubkey req_id "invalid_type"]
        else if trimStr req.query = "" then
          [send_error serverPk e.pubkey req_id "empty_query"]
        else
          match lookup (trimStr req.query) with
          | .ok r => [send_ok serverPk e.pubkey req_id r]
          | .error m => [send_error serverPk e.pubkey req_id m]

/-- The `start_listening` notification loop over a finite stream of events:
each event is handled in turn and any `handle_event` error is logged, never
breaking the loop, so the published output is the concatenation of each
publications of each event in order. -/
def process_events (serverPk : String) (parse : String → Option LookupRequest)
    (lookup : String → Except String LookupResult) : List NEvent → List Published
  | [] => []
  | e :: rest =>
      handle_event serverPk parse lookup e ++ process_events serverPk parse lookup rest

/-! ### The capacity-1 gate (`ElectrsClient.gate`) as a transition system

Each lookup task runs: cooldown check (may fail fast), `gate.acquire()`,
a sequence of physical backend calls while holding the permit, release.
The scheduler interleaves tasks arbitrarily; the semaphore has one permit
(`gateFree`). -/

/-- Phase of one lookup task: not yet started, waiting on `gate.acquire()`,
holding the permit with `k` backend calls still to make, or finished. -/
inductive Phase where
  | idle
  | waiting
  | critical (k : Nat)
  | done
deriving DecidableEq, Repr

/-- Whether a task currently holds the permit (is inside its backend RPC
sequence). -/
def isCritical : Phase → Bool
  | .critical _ => true
  | _ => false

/-- Global state: the single permit and the phase of every task. -/
structure Sys where
  gateFree : Bool
  tasks : Nat → Phase

/-- Interleaving semantics of the gated lookups: a task may start (pass its
cooldown check) or fail fast; a waiting task may acquire the permit only
when it is free, entering a backend sequence of some length `k`; a task in
its sequence performs physical calls one at a time; releasing returns the
permit. -/
inductive Step : Sys → Sys → Prop where
  | start (s : Sys) (i : Nat) (h : s.tasks i = .idle) :
      Step s ⟨s.gateFree, Function.update s.tasks i .waiting⟩
  | failFast (s : Sys) (i : Nat) (h : s.tasks i = .idle) :
      Step s ⟨s.gateFree, Function.update s.tasks i .done⟩
  | acquire (s : Sys) (i k : Nat) (h : s.tasks i = .waiting) (hg : s.gateFree = true) :
      Step s ⟨false, Function.update s.tasks i (.critical k)⟩
  | call (s : Sys) (i k : Nat) (h : s.tasks i = .critical (k + 1)) :
      Step s ⟨s.gateFree, Function.update s.tasks i (.critical k)⟩
  | release (s : Sys) (i k : Nat) (h : s.tasks i = .critical k) :
      Step s ⟨true, Function.update s.tasks i .done⟩

/-- Initial state: permit free, every task idle. -/
def SysInit : Sys := ⟨true, fun _ => .idle⟩

/-- States reachable from the initial state under arbitrary interleaving. -/
def Reachable (s : Sys) : Prop := Relation.ReflTransGen Step SysInit s

/-! ### Helper lemmas -/

lemma min_add_shift (a s M : Nat) : min (min a M + s) M = min (a + s) M := by
  omega

lemma satAdd_le (a b : Nat) : satAdd a b ≤ U64MAX := Nat.min_le_right _ _

lemma satSum_le (l : List Nat) : satSum l ≤ U64MAX := Nat.min_le_right _ _

lemma foldl_satAdd (l : List Nat) : ∀ c, c ≤ U64MAX →
    l.foldl satAdd c = min (c + l.sum) U64MAX := by
  induction l with
  | nil => intro c hc; simpa using (Nat.min_eq_left hc).symm
  | cons x xs ih =>
    intro c hc
    rw [List.foldl_cons, ih (satAdd c x) (satAdd_le c x)]
    simp only [satAdd, List.sum_cons]
    omega

/-- Values of the confirmed (height > 0) UTXOs. -/
def confVals (l : List Utxo) : List Nat := (l.filter fun u => 0 < u.height).map Utxo.value

/-- Values of the unconfirmed (height = 0) UTXOs. -/
def unconfVals (l : List Utxo) : List Nat := (l.filter fun u => u.height = 0).map Utxo.value

lemma foldl_sumStep (l : List Utxo) : ∀ c u, c ≤ U64MAX → u ≤ U64MAX →
    l.foldl sumStep (c, u) =
      (min (c + (confVals l).sum) U64MAX, min (u + (unconfVals l).sum) U64MAX) := by
  induction l with
  | nil =>
    intro c u hc hu
    simp only [List.foldl_nil, confVals, unconfVals, List.filter_nil, List.map_nil,
      List.sum_nil, Nat.add_zero]
    rw [Nat.min_eq_left hc, Nat.min_eq_left hu]
  | cons x xs ih =>
    intro c u hc hu
    by_cases hx : 0 < x.height
    · have hx0 : ¬ x.height = 0 := by omega
      rw [List.foldl_cons]
      have hstep : sumStep (c, u) x = (satAdd c x.value, u) := by
        simp [sumStep, hx]
      rw [hstep, ih (satAdd c x.value) u (satAdd_le _ _) hu]
      have d1 : decide (0 < x.height) = true := by simp [hx]
      have d2 : decide (x.height = 0) = false := by simp [hx0]
      simp [confVals, unconfVals, List.filter_cons, d1, d2, satAdd, Prod.ext_iff]
      omega
    · have hx0 : x.height = 0 := by omega
      rw [List.foldl_cons]
      have hstep : sumStep (c, u) x = (c, satAdd u x.value) := by
        simp [sumStep, hx]
      rw [hstep, ih c (satAdd u x.value) hc (satAdd_le _ _)]
      have d1 : decide (0 < x.height) = false := by simp [hx]
      have d2 : decide (x.height = 0) = true := by simp [hx0]
      simp [confVals, unconfVals, List.filter_cons, d1, d2, satAdd, Prod.ext_iff]
      omega

lemma check_cooldown_ok_none {now : Nat} {cd : Option Nat}
    (h : (check_cooldown now cd).2 = .ok ()) : check_cooldown now cd = (none, .ok ()) := by
  match cd with
  | none => rfl
  | some u =>
    simp only [check_cooldown] at h ⊢
    split at h
    · simp at h
    · simp_all

/-! ### C3 — empty history fast path -/

/-- C3: when the backend history of the receiving script of an address is
empty, `get_address_balance_blocking` returns `(0, 0)` immediately and its
call trace never contains a UTXO listing call. -/
theorem C3_empty_history_fast_path (b : Backend) (addr script : String)
    (hp : b.parse_address addr = .ok script)
    (hh : b.script_get_history script = .ok []) :
    get_address_balance_blocking b addr = ([.history script], .ok (0, 0))
    ∧ ∀ s, Call.listUnspent s ∉ (get_address_balance_blocking b addr).1 := by
  have hmain : get_address_balance_blocking b addr = ([.history script], .ok (0, 0)) := by
    simp [get_address_balance_blocking, hp, hh]
  refine ⟨hmain, ?_⟩
  intro s hs
  rw [hmain] at hs
  simp at hs

/-- C3 witness: a concrete backend with empty history for `a1`. -/
def bEmpty : Backend :=
  ⟨fun _ => .ok "s1", fun _ => .ok [], fun _ => .ok [⟨5, 1⟩]⟩

theorem C3_witness :
    get_address_balance_blocking bEmpty "a1" = ([.history "s1"], .ok (0, 0))
    ∧ Call.listUnspent "s1" ∉ (get_address_balance_blocking bEmpty "a1").1 := by
  have h := C3_empty_history_fast_path bEmpty "a1" "s1" rfl rfl
  exact ⟨h.1, h.2 "s1"⟩

/-! ### C8 — saturating height-partitioned sums -/

/-- C8: for a non-empty UTXO set returned after a non-empty history, the
blocking balance is the saturating sum of values with height > 0
(confirmed) and the saturating sum of the height-0 values (unconfirmed);
both components are capped at `u64::MAX`. -/
theorem C8_saturating_sums (b : Backend) (addr script : String)
    (hist : List String) (utxos : List Utxo)
    (hp : b.parse_address addr = .ok script)
    (hh : b.script_get_history script = .ok hist)
    (hne : hist ≠ [])
    (hu : b.script_list_unspent script = .ok utxos)
    (hune : utxos ≠ []) :
    get_address_balance_blocking b addr =
      ([.history script, .listUnspent script],
        .ok (satSum (confVals utxos), satSum (unconfVals utxos)))
    ∧ satSum (confVals utxos) ≤ U64MAX ∧ satSum (unconfVals utxos) ≤ U64MAX := by
  have hfold := foldl_sumStep utxos 0 0 (Nat.zero_le _) (Nat.zero_le _)
  have hempty : hist.isEmpty = false := by
    cases hist with
    | nil => exact absurd rfl hne
    | cons a l => rfl
  refine ⟨?_, satSum_le _, satSum_le _⟩
  simp [get_address_balance_blocking, hp, hh, hempty, hu, satSum]
  simpa using hfold

/-- C8 witness backend: one used address with UTXOs
`[{value 1000, height 700000}, {value 500, height 0}]`. -/
def bUsed : Backend :=
  ⟨fun _ => .ok "s2", fun _ => .ok ["h1", "h2"],
    fun _ => .ok [⟨1000, 700000⟩, ⟨500, 0⟩]⟩

theorem C8_witness :
    get_address_balance_blocking bUsed "a2" =
      ([.history "s2", .listUnspent "s2"], .ok (1000, 500)) := by
  have h := (C8_saturating_sums bUsed "a2" "s2" ["h1", "h2"]
    [⟨1000, 700000⟩, ⟨500, 0⟩] rfl rfl (by decide) rfl (by decide)).1
  rw [h]
  rfl

/-! ### C1 — timeout / retry / cooldown policy of `get_address_balance` -/

/-- C1: once past the cooldown checks, a first 90 s timeout sets a 10 s
cooldown and retries the whole sequence exactly once under a fresh 90 s
deadline; a second timeout sets a 20 s cooldown and fails with the timeout
error, with no further attempt; a non-timeout backend (or join) error is
returned immediately after the single attempt, with no retry and no
cooldown ever set. -/
theorem C1_timeout_retry_policy (cd : Option Nat)
    (env1 env2 env3 env4 : BalanceEnv)
    (hc1 : (check_cooldown env1.now0 cd).2 = .ok ())
    (hc2 : (check_cooldown env2.now0 cd).2 = .ok ())
    (hc3 : (check_cooldown env3.now0 cd).2 = .ok ())
    (hc4 : (check_cooldown env4.now0 cd).2 = .ok ()) :
    (env1.attempt1 = .timedOut → env1.attempt2 = .timedOut →
      get_address_balance cd env1 =
        (some (env1.tSet2 + 20000), .timeoutAfterRetry,
          [.runAttempt 90, .setCooldown 10, .runAttempt 90, .setCooldown 20]))
    ∧ (∀ v, env2.attempt1 = .timedOut → env2.attempt2 = .completed (.ok v) →
      get_address_balance cd env2 =
        (some (env2.tSet1 + 10000), .ok v,
          [.runAttempt 90, .setCooldown 10, .runAttempt 90]))
    ∧ (∀ m, env3.attempt1 = .completed (.error m) →
      get_address_balance cd env3 = (none, .balanceError m, [.runAttempt 90]))
    ∧ (∀ m, env4.attempt1 = .joinErr m →
      get_address_balance cd env4 = (none, .joinError m, [.runAttempt 90])) := by
  refine ⟨?_, ?_, ?_, ?_⟩
  · intro h1 h2
    rw [get_address_balance, check_cooldown_ok_none hc1]
    simp [check_cooldown, h1, h2, set_cooldown]
  · intro v h1 h2
    rw [get_address_balance, check_cooldown_ok_none hc2]
    simp [check_cooldown, h1, h2, set_cooldown]
  · intro m h1
    rw [get_address_balance, check_cooldown_ok_none hc3]
    simp [check_cooldown, h1]
  · intro m h1
    rw [get_address_balance, check_cooldown_ok_none hc4]
    simp [check_cooldown, h1]

/-- C1 witness environment: both attempts time out. -/
def envTT : BalanceEnv := ⟨0, 1, 2, 200, .timedOut, .timedOut⟩

/-- C1 witness environment: the first attempt fails with a backend error. -/
def envErr : BalanceEnv := ⟨0, 1, 2, 3, .completed (.error "rpc"), .timedOut⟩

theorem C1_witness :
    get_address_balance none envTT =
      (some 20200, .timeoutAfterRetry,
        [.runAttempt 90, .setCooldown 10, .runAttempt 90, .setCooldown 20])
    ∧ get_address_balance none envErr = (none, .balanceError "rpc", [.runAttempt 90]) := by
  have h := C1_timeout_retry_policy none envTT envTT envErr envErr rfl rfl rfl rfl
  exact ⟨h.1 rfl rfl, h.2.2.1 "rpc" rfl⟩

/-! ### C2 — cooldown fail-fast and lazy reset -/

/-- C2: when a cooldown deadline lies strictly in the future, both
`get_address_balance` and `get_address_txs` fail fast with the cooling-down
error carrying the remaining milliseconds, leave the deadline in place, and
perform no attempt at all; the first check at or after the deadline resets
the state to `none` and the call proceeds to a physical attempt. -/
theorem C2_cooldown_gate (u : Nat) (benvA benvB : BalanceEnv) (tenvA tenvB : TxsEnv) :
    (benvA.now0 < u →
      get_address_balance (some u) benvA = (some u, .coolingDown (u - benvA.now0), []))
    ∧ (tenvA.now0 < u →
      get_address_txs (some u) tenvA = (some u, .coolingDown (u - tenvA.now0), []))
    ∧ (u ≤ benvB.now0 →
      check_cooldown benvB.now0 (some u) = (none, .ok ())
      ∧ (get_address_balance (some u) benvB).2.2.head? = some (.runAttempt 90))
    ∧ (u ≤ tenvB.now0 →
      check_cooldown tenvB.now0 (some u) = (none, .ok ())
      ∧ (get_address_txs (some u) tenvB).2.2.head? = some (.runAttempt 45)) := by
  refine ⟨?_, ?_, ?_, ?_⟩
  · intro h
    simp [get_address_balance, check_cooldown, h]
  · intro h
    simp [get_address_txs, check_cooldown, h]
  · intro h
    have h0 : check_cooldown benvB.now0 (some u) = (none, .ok ()) := by
      simp [check_cooldown, Nat.not_lt.mpr h]
    refine ⟨h0, ?_⟩
    rw [get_address_balance, h0]
    rcases benvB.attempt1 with _ | m | r
    · rcases benvB.attempt2 with _ | m2 | r2
      · simp [check_cooldown]
      · simp [check_cooldown]
      · rcases r2 with m2 | v2 <;> simp [check_cooldown]
    · simp [check_cooldown]
    · rcases r with m | v <;> simp [check_cooldown]
  · intro h
    have h0 : check_cooldown tenvB.now0 (some u) = (none, .ok ()) := by
      simp [check_cooldown, Nat.not_lt.mpr h]
    refine ⟨h0, ?_⟩
    rw [get_address_txs, h0]
    rcases tenvB.attempt with _ | m | r
    · simp [check_cooldown]
    · simp [check_cooldown]
    · rcases r with m | v <;> simp [check_cooldown]

/-- C2 witness environments: a call 400 ms before the deadline and a call
at the deadline. -/
def benvEarly : BalanceEnv := ⟨600, 601, 0, 0, .completed (.ok (1, 2)), .timedOut⟩

/-- C2 witness environment for the txs path, before the deadline. -/
def tenvEarly : TxsEnv := ⟨600, 601, 0, .completed (.ok ["t"])⟩

/-- C2 witness environment at the deadline. -/
def benvLate : BalanceEnv := ⟨1000, 1001, 0, 0, .completed (.ok (1, 2)), .timedOut⟩

/-- C2 witness environment for the txs path, at the deadline. -/
def tenvLate : TxsEnv := ⟨1000, 1001, 0, .completed (.ok ["t"])⟩

theorem C2_witness :
    get_address_balance (some 1000) benvEarly = (some 1000, .coolingDown 400, [])
    ∧ get_address_txs (some 1000) tenvEarly = (some 1000, .coolingDown 400, [])
    ∧ check_cooldown 1000 (some 1000) = (none, .ok ())
    ∧ (get_address_balance (some 1000) benvLate).2.2.head? = some (.runAttempt 90)
    ∧ (get_address_txs (some 1000) tenvLate).2.2.head? = some (.runAttempt 45) := by
  have h := C2_cooldown_gate 1000 benvEarly benvLate tenvEarly tenvLate
  refine ⟨h.1 (by decide), h.2.1 (by decide), ?_, ?_, ?_⟩
  · exact (h.2.2.1 (by decide)).1
  · exact (h.2.2.1 (by decide)).2
  · exact (h.2.2.2 (by decide)).2

/-! ### C7 — per-chain derivation with early stop -/

lemma deriveChain_eq (fuel : Nat) : ∀ f : Nat → Except String String,
    deriveChain f fuel = (List.range (stopIdx f fuel)).map fun i => okVal (f i) := by
  induction fuel with
  | zero => intro f; rfl
  | succ n ih =>
    intro f
    rw [deriveChain, stopIdx]
    cases hf : f 0 with
    | error m => simp
    | ok a =>
      rw [List.range_succ_eq_map, List.map_cons, List.map_map]
      rw [ih (fun j => f (j + 1))]
      simp [hf, okVal, Function.comp, Nat.succ_eq_add_one, Nat.add_comm]

lemma stopIdx_le (fuel : Nat) : ∀ f, stopIdx f fuel ≤ fuel := by
  induction fuel with
  | zero => intro f; exact Nat.le_refl 0
  | succ n ih =>
    intro f
    rw [stopIdx]
    cases f 0 with
    | error m => exact Nat.zero_le _
    | ok a => exact Nat.succ_le_succ (ih _)

lemma stopIdx_ok (fuel : Nat) : ∀ f i, i < stopIdx f fuel → exOk (f i) = true := by
  induction fuel with
  | zero => intro f i h; simp [stopIdx] at h
  | succ n ih =>
    intro f i h
    rw [stopIdx] at h
    cases hf : f 0 with
    | error m => simp only [hf] at h; omega
    | ok a =>
      simp only [hf] at h
      cases i with
      | zero => simp [exOk, hf]
      | succ j => exact ih (fun j => f (j + 1)) j (by omega)

lemma stopIdx_fail (fuel : Nat) : ∀ f, stopIdx f fuel < fuel →
    exOk (f (stopIdx f fuel)) = false := by
  induction fuel with
  | zero => intro f h; omega
  | succ n ih =>
    intro f h
    rw [stopIdx] at h ⊢
    cases hf : f 0 with
    | error m => simp [exOk, hf]
    | ok a =>
      simp only [hf] at h ⊢
      exact ih (fun j => f (j + 1)) (by omega)

/-- C7: for a parseable extended key, `derive_addresses` emits exactly the
successfully derived external-chain addresses in ascending index order
followed by the internal-chain ones in ascending index order; each chain
keeps every index below its own first failure (all of which derived
successfully), the index at a failure short of the gap limit indeed failed,
and each chain stops within the gap limit independently of the other. -/
theorem C7_per_chain_derivation (m : XpubModel) (gap : Nat) (h : m.parse = .ok ()) :
    derive_addresses m gap = .ok
      (((List.range (stopIdx (m.deriveAt 0) gap)).map fun i => okVal (m.deriveAt 0 i)) ++
        ((List.range (stopIdx (m.deriveAt 1) gap)).map fun i => okVal (m.deriveAt 1 i)))
    ∧ (∀ c i, i < stopIdx (m.deriveAt c) gap → exOk (m.deriveAt c i) = true)
    ∧ (∀ c, stopIdx (m.deriveAt c) gap < gap →
        exOk (m.deriveAt c (stopIdx (m.deriveAt c) gap)) = false)
    ∧ (∀ c, stopIdx (m.deriveAt c) gap ≤ gap) := by
  refine ⟨?_, ?_, ?_, ?_⟩
  · rw [derive_addresses, h, deriveChain_eq gap (m.deriveAt 0), deriveChain_eq gap (m.deriveAt 1)]
  · intro c i hi; exact stopIdx_ok gap (m.deriveAt c) i hi
  · intro c hc; exact stopIdx_fail gap (m.deriveAt c) hc
  · intro c; exact stopIdx_le gap (m.deriveAt c)

/-- C7 witness key model: external derivation fails at index 5, the
internal chain never fails. -/
def mXpub : XpubModel :=
  ⟨.ok (), fun c i =>
    if c = 0 then (if i < 5 then .ok ("e" ++ toString i) else .error "derive fail")
    else .ok ("c" ++ toString i)⟩

theorem C7_witness :
    derive_addresses mXpub 20 = .ok
      (((List.range 5).map fun i => okVal (mXpub.deriveAt 0 i)) ++
        ((List.range 20).map fun i => okVal (mXpub.deriveAt 1 i)))
    ∧ ((List.range 5).map fun i => okVal (mXpub.deriveAt 0 i)).length = 5
    ∧ ((List.range 20).map fun i => okVal (mXpub.deriveAt 1 i)).length = 20 := by
  have h := (C7_per_chain_derivation mXpub 20 rfl).1
  have h0 : stopIdx (mXpub.deriveAt 0) 20 = 5 := by decide
  have h1 : stopIdx (mXpub.deriveAt 1) 20 = 20 := by decide
  rw [h0, h1] at h
  exact ⟨h, by simp, by simp⟩

/-! ### C5 / C6 — orchestrator lemmas -/

lemma charsLe_total (a : List Char) : ∀ b, charsLe a b = false → charsLe b a = true := by
  induction a with
  | nil => intro b h; simp [charsLe] at h
  | cons c cs ih =>
    intro b h
    cases b with
    | nil => rfl
    | cons d ds =>
      rw [charsLe] at h ⊢
      by_cases h1 : c.toNat < d.toNat
      · simp [h1] at h
      · by_cases h2 : d.toNat < c.toNat
        · simp [h2]
        · simp [h1, h2] at h ⊢
          exact ih ds h

lemma charsLe_trans (a : List Char) : ∀ b c, charsLe a b = true → charsLe b c = true →
    charsLe a c = true := by
  induction a with
  | nil => intro b c h1 h2; rfl
  | cons x xs ih =>
    intro b c h1 h2
    cases b with
    | nil => simp [charsLe] at h1
    | cons y ys =>
      cases c with
      | nil => simp [charsLe] at h2
      | cons z zs =>
        rw [charsLe] at h1 h2 ⊢
        by_cases hxy : x.toNat < y.toNat
        · by_cases hyz : y.toNat < z.toNat
          · have hxz : x.toNat < z.toNat := by omega
            simp [hxz]
          · by_cases hzy : z.toNat < y.toNat
            · simp [hyz, hzy] at h2
            · have hxz : x.toNat < z.toNat := by omega
              simp [hxz]
        · by_cases hyx : y.toNat < x.toNat
          · simp [hxy, hyx] at h1
          · by_cases hyz : y.toNat < z.toNat
            · have hxz : x.toNat < z.toNat := by omega
              simp [hxz]
            · by_cases hzy : z.toNat < y.toNat
              · simp [hyz, hzy] at h2
              · have hxz : ¬ x.toNat < z.toNat := by omega
                have hzx : ¬ z.toNat < x.toNat := by omega
                simp [hxy, hyx] at h1
                simp [hyz, hzy] at h2
                simp [hxz, hzx]
                exact ih ys zs h1 h2

lemma strLe_total (a b : String) (h : strLe a b = false) : strLe b a = true :=
  charsLe_total a.data b.data h

lemma strLe_trans (a b c : String) (h1 : strLe a b = true) (h2 : strLe b c = true) :
    strLe a c = true :=
  charsLe_trans a.data b.data c.data h1 h2

/-- The sortedness predicate used for the emitted txid list. -/
def SortedLe (l : List String) : Prop := l.Pairwise fun a b => strLe a b = true

lemma insertSorted_perm (x : String) (l : List String) :
    (insertSorted x l).Perm (x :: l) := by
  induction l with
  | nil => exact List.Perm.refl _
  | cons y ys ih =>
    rw [insertSorted]
    split
    · exact List.Perm.refl _
    · exact (ih.cons y).trans (List.Perm.swap x y ys)

lemma sortStrings_perm (l : List String) : (sortStrings l).Perm l := by
  induction l with
  | nil => exact List.Perm.refl _
  | cons a l ih =>
    have h : sortStrings (a :: l) = insertSorted a (sortStrings l) := rfl
    rw [h]
    exact (insertSorted_perm a (sortStrings l)).trans (ih.cons a)

lemma insertSorted_sorted (x : String) (l : List String) (h : SortedLe l) :
    SortedLe (insertSorted x l) := by
  induction l with
  | nil => simp [insertSorted, SortedLe]
  | cons y ys ih =>
    obtain ⟨hy, hys⟩ := List.pairwise_cons.mp h
    rw [insertSorted]
    split
    · rename_i hxy
      refine List.pairwise_cons.mpr ⟨?_, h⟩
      intro b hb
      rcases List.mem_cons.mp hb with rfl | hb
      · exact hxy
      · exact strLe_trans x y b hxy (hy b hb)
    · rename_i hxy
      have hyx : strLe y x = true := strLe_total x y (by simpa using hxy)
      refine List.pairwise_cons.mpr ⟨?_, ih hys⟩
      intro b hb
      rcases List.mem_cons.mp ((insertSorted_perm x ys).mem_iff.mp hb) with rfl | h1
      · exact hyx
      · exact hy b h1

lemma sortStrings_sorted (l : List String) : SortedLe (sortStrings l) := by
  induction l with
  | nil => simp [sortStrings, SortedLe]
  | cons a l ih => exact insertSorted_sorted a (sortStrings l) ih

lemma mem_insertTx (s : List String) (t x : String) :
    x ∈ insertTx s t ↔ x ∈ s ∨ x = t := by
  by_cases h : t ∈ s
  · simp only [insertTx, h, if_true]
    constructor
    · exact Or.inl
    · rintro (hx | rfl)
      · exact hx
      · exact h
  · simp [insertTx, h]

lemma foldl_insertTx_mem (l : List String) : ∀ s x, x ∈ l.foldl insertTx s ↔ x ∈ s ∨ x ∈ l := by
  induction l with
  | nil => simp
  | cons a l ih =>
    intro s x
    rw [List.foldl_cons, ih, mem_insertTx]
    simp [List.mem_cons]
    tauto

lemma insertTx_nodup (s : List String) (t : String) (h : s.Nodup) : (insertTx s t).Nodup := by
  by_cases ht : t ∈ s
  · simpa [insertTx, ht]
  · simp [insertTx, ht, List.nodup_append, h]

lemma foldl_insertTx_nodup (l : List String) : ∀ s, s.Nodup → (l.foldl insertTx s).Nodup := by
  induction l with
  | nil => intro s h; simpa
  | cons a l ih =>
    intro s h
    rw [List.foldl_cons]
    exact ih _ (insertTx_nodup s a h)

/-- Per-address balance successes, in address order. -/
def balSuccs (lk : LookupClient) (addrs : List String) : List (Nat × Nat) :=
  addrs.filterMap fun a => (lk.balance a).toOption

/-- Concatenation of the per-address txid lists of the successful txs
calls, in address order. -/
def txSuccs (lk : LookupClient) (addrs : List String) : List String :=
  addrs.flatMap fun a =>
    match lk.txs a with
    | .ok l => l
    | .error _ => []

lemma foldl_xpubStep (lk : LookupClient) (addrs : List String) :
    ∀ c u ts, c ≤ U64MAX → u ≤ U64MAX →
    addrs.foldl (xpubStep lk) (c, u, ts) =
      (min (c + ((balSuccs lk addrs).map Prod.fst).sum) U64MAX,
        min (u + ((balSuccs lk addrs).map Prod.snd).sum) U64MAX,
        (txSuccs lk addrs).foldl insertTx ts) := by
  induction addrs with
  | nil =>
    intro c u ts hc hu
    simp only [List.foldl_nil, balSuccs, txSuccs, List.filterMap_nil, List.flatMap_nil,
      List.map_nil, List.sum_nil, Nat.add_zero]
    rw [Nat.min_eq_left hc, Nat.min_eq_left hu]
  | cons a l ih =>
    intro c u ts hc hu
    rw [List.foldl_cons]
    cases hb : lk.balance a with
    | error mb =>
      cases ht : lk.txs a with
      | error mt =>
        have hstep : xpubStep lk (c, u, ts) a = (c, u, ts) := by
          simp [xpubStep, hb, ht]
        rw [hstep, ih c u ts hc hu]
        simp [balSuccs, txSuccs, hb, ht, Except.toOption]
      | ok tl =>
        have hstep : xpubStep lk (c, u, ts) a = (c, u, tl.foldl insertTx ts) := by
          simp [xpubStep, hb, ht]
        rw [hstep, ih c u _ hc hu]
        simp [balSuccs, txSuccs, hb, ht, Except.toOption, List.foldl_append]
    | ok p =>
      obtain ⟨cb, ub⟩ := p
      cases ht : lk.txs a with
      | error mt =>
        have hstep : xpubStep lk (c, u, ts) a = (satAdd c cb, satAdd u ub, ts) := by
          simp [xpubStep, hb, ht]
        rw [hstep, ih _ _ ts (satAdd_le _ _) (satAdd_le _ _)]
        simp only [balSuccs, txSuccs, hb, ht, Except.toOption, List.filterMap_cons,
          List.flatMap_cons, List.map_cons, List.sum_cons, List.nil_append, satAdd,
          Prod.mk.injEq]
        exact ⟨by omega, by omega, trivial⟩
      | ok tl =>
        have hstep : xpubStep lk (c, u, ts) a =
            (satAdd c cb, satAdd u ub, tl.foldl insertTx ts) := by
          simp [xpubStep, hb, ht]
        rw [hstep, ih _ _ _ (satAdd_le _ _) (satAdd_le _ _)]
        simp only [balSuccs, txSuccs, hb, ht, Except.toOption, List.filterMap_cons,
          List.flatMap_cons, List.map_cons, List.sum_cons, satAdd, Prod.mk.injEq,
          List.foldl_append]
        exact ⟨by omega, by omega, trivial⟩

/-! ### C6 — extended-key aggregation -/

/-- C6: for an extended-key query whose derivation (gap limit 20) succeeds,
`perform_lookup` always succeeds (per-address failures are skipped, never
abort the query), issues one balance and one txs gate call per derived
address, returns the saturating sums of the successful balance results, and
returns a transaction-id list that has no duplicates, is sorted
lexicographically, and whose members are exactly the union of the
per-address id lists of the successful txs calls. -/
theorem C6_xpub_aggregation (deriveM : String → Nat → Except String (List String))
    (lk : LookupClient) (query : String) (addrs : List String)
    (hx : is_xpub query = true)
    (hd : deriveM query 20 = .ok addrs) :
    perform_lookup deriveM lk query =
      (addrs.flatMap fun a => [.balanceCall a, .txsCall a],
        .ok ⟨satSum ((balSuccs lk addrs).map Prod.fst),
          satSum ((balSuccs lk addrs).map Prod.snd),
          sortStrings ((txSuccs lk addrs).foldl insertTx [])⟩)
    ∧ (sortStrings ((txSuccs lk addrs).foldl insertTx [])).Nodup
    ∧ SortedLe (sortStrings ((txSuccs lk addrs).foldl insertTx []))
    ∧ ∀ t, t ∈ sortStrings ((txSuccs lk addrs).foldl insertTx []) ↔
        ∃ a, a ∈ addrs ∧ ∃ ids, lk.txs a = .ok ids ∧ t ∈ ids := by
  have hfold := foldl_xpubStep lk addrs 0 0 [] (Nat.zero_le _) (Nat.zero_le _)
  refine ⟨?_, ?_, sortStrings_sorted _, ?_⟩
  · simp [perform_lookup, hx, hd, hfold, satSum]
  · exact (sortStrings_perm _).nodup_iff.mpr (foldl_insertTx_nodup _ [] List.nodup_nil)
  · intro t
    rw [(sortStrings_perm _).mem_iff, foldl_insertTx_mem]
    simp only [List.not_mem_nil, false_or, txSuccs, List.mem_flatMap]
    refine exists_congr fun a => and_congr_right fun _ => ?_
    cases htx : lk.txs a with
    | ok ids => simp [htx]
    | error m => simp [htx]

/-- C6 witness query (an extended key by prefix). -/
def q6 : String := "xpubDEMO"

/-- C6 witness derivation: two addresses. -/
def d6 : String → Nat → Except String (List String) := fun _ _ => .ok ["a1", "a2"]

/-- C6 witness client: balance fails for the second address, txs overlap. -/
def lk6 : LookupClient :=
  ⟨fun a => if a = "a1" then .ok (7, 1) else .error "balfail",
    fun a => if a = "a1" then .ok ["t2", "t1"] else .ok ["t1"]⟩

theorem C6_witness :
    perform_lookup d6 lk6 q6 =
      ([.balanceCall "a1", .txsCall "a1", .balanceCall "a2", .txsCall "a2"],
        .ok ⟨7, 1, ["t1", "t2"]⟩)
    ∧ (["t1", "t2"] : List String).Nodup := by
  have h := (C6_xpub_aggregation d6 lk6 q6 ["a1", "a2"] (by decide) rfl).1
  rw [h]
  refine ⟨?_, by decide⟩
  rfl

/-! ### C5 — single-address pass-through (corrected) -/

/-- C5 single-address query used by the counterexample and witness. -/
def q5 : String := "1A1zP1eP5QGefi2DMPTfTL5SLmv7DivfNa"

/-- C5 client: a used address with a 2-entry history available from the
txs oracle. -/
def lk5 : LookupClient := ⟨fun _ => .ok (1000, 500), fun _ => .ok ["t1", "t2"]⟩

/-- C5 derivation oracle (never consulted for a plain address). -/
def d5 : String → Nat → Except String (List String) := fun _ _ => .error "not an xpub"

/-- C5 counterexample: on a single-address lookup the orchestrator issues
no txs gate call at all and returns - despite the txs oracle holding two
ids - an empty transaction list, refuting the claimed pass-through of the
backend id list. -/
theorem C5_counterexample :
    perform_lookup d5 lk5 q5 = ([.balanceCall q5], .ok ⟨1000, 500, []⟩)
    ∧ lk5.txs q5 = .ok ["t1", "t2"]
    ∧ GateCall.txsCall q5 ∉ (perform_lookup d5 lk5 q5).1 := by
  refine ⟨rfl, rfl, by decide⟩

/-- C5 (amended): for a query classified as a single Bitcoin address, the
orchestrator performs exactly one balance call through the gate, passes the
balances through, performs no transaction-id call, and the transactions
field of the response is always the empty list. -/
theorem C5_single_address (deriveM : String → Nat → Except String (List String))
    (lk : LookupClient) (query : String) (c u : Nat)
    (hx : is_xpub query = false)
    (ha : is_bitcoin_address query = true)
    (hb : lk.balance query = .ok (c, u)) :
    perform_lookup deriveM lk query = ([.balanceCall query], .ok ⟨c, u, []⟩) := by
  simp [perform_lookup, hx, ha, hb]

theorem C5_witness :
    perform_lookup d5 lk5 q5 = ([.balanceCall q5], .ok ⟨1000, 500, []⟩) :=
  C5_single_address d5 lk5 q5 1000 500 (by decide) (by decide) rfl

/-! ### C4 — correlation-tag echo -/

/-- C4: every event published by `handle_event` echoes, verbatim, the `req`
tag value of the triggering request both as its own `req` tag and inside
its payload, and an inbound request without a `req` tag produces no
publication at all. -/
theorem C4_req_echo (serverPk : String) (parse : String → Option LookupRequest)
    (lookup : String → Except String LookupResult) (e : NEvent) :
    (∀ p ∈ handle_event serverPk parse lookup e,
      get_tag e "req" = some p.req_tag ∧ p.payload.req = p.req_tag
        ∧ p.kind = BALANCEBRIDGE_RESPONSE_KIND)
    ∧ (get_tag e "req" = none → handle_event serverPk parse lookup e = []) := by
  constructor
  · intro p hp
    unfold handle_event at hp
    split at hp
    · simp at hp
    · split at hp
      · simp at hp
      · split at hp
        · simp at hp
        · rename_i req_id hreq
          split at hp
          · simp at hp
            subst hp
            exact ⟨hreq, rfl, rfl⟩
          · split at hp
            · simp at hp
              subst hp
              exact ⟨hreq, rfl, rfl⟩
            · split at hp
              · simp at hp
                subst hp
                exact ⟨hreq, rfl, rfl⟩
              · split at hp
                · simp at hp
                  subst hp
                  exact ⟨hreq, rfl, rfl⟩
                · simp at hp
                  subst hp
                  exact ⟨hreq, rfl, rfl⟩
  · intro h
    unfold handle_event
    split
    · rfl
    · split
      · rfl
      · rw [h]

/-- C4 witness event: a well-formed request carrying `req = "r1"`. -/
def e4 : NEvent :=
  ⟨30078, "alice", [["p", "srv"], ["req", "r1"]],
    "payload"⟩

/-- C4 witness parser: the payload parses to a valid lookup request. -/
def parse4 : String → Option LookupRequest := fun _ => some ⟨"bitcoin_lookup", "1abc"⟩

/-- C4 witness lookup oracle. -/
def lookup4 : String → Except String LookupResult := fun _ => .ok ⟨3, 4, []⟩

theorem C4_witness :
    get_tag e4 "req" = some (send_ok "srv" "alice" "r1" ⟨3, 4, []⟩).req_tag
    ∧ (send_ok "srv" "alice" "r1" ⟨3, 4, []⟩).payload.req
        = (send_ok "srv" "alice" "r1" ⟨3, 4, []⟩).req_tag := by
  have hmem : send_ok "srv" "alice" "r1" ⟨3, 4, []⟩ ∈ handle_event "srv" parse4 lookup4 e4 := by
    have he : handle_event "srv" parse4 lookup4 e4 = [send_ok "srv" "alice" "r1" ⟨3, 4, []⟩] := rfl
    rw [he]
    exact List.mem_singleton.mpr rfl
  have h := (C4_req_echo "srv" parse4 lookup4 e4).1 _ hmem
  exact ⟨h.1, h.2.1⟩

/-! ### C9 — malformed payload (corrected: an error response is published) -/

/-- C9 event: a kind-30078 request whose content does not parse. -/
def e9 : NEvent := ⟨30078, "bob", [["p", "srv9"], ["req", "r9"]], "notjson"⟩

/-- C9 parser: JSON parsing fails on every payload. -/
def parse9 : String → Option LookupRequest := fun _ => none

/-- C9 lookup oracle (never reached). -/
def lookup9 : String → Except String LookupResult := fun _ => .error "unreachable"

/-- C9 counterexample: a readable but unparseable payload does NOT leave
the event unanswered; `handle_event` publishes an `invalid_json` error
response for it, refuting the claim that no response is published. -/
theorem C9_counterexample :
    parse9 e9.content = none
    ∧ handle_event "srv9" parse9 lookup9 e9 = [send_error "srv9" "bob" "r9" "invalid_json"]
    ∧ handle_event "srv9" parse9 lookup9 e9 ≠ [] := by
  refine ⟨rfl, rfl, ?_⟩
  have he : handle_event "srv9" parse9 lookup9 e9
      = [send_error "srv9" "bob" "r9" "invalid_json"] := rfl
  rw [he]
  simp

/-- C9 (amended): an inbound request event whose payload is readable but
fails parsing as a lookup request yields exactly one published response -
an error response with message `invalid_json` echoing the `req` tag - and
the event loop continues handling subsequent events. -/
theorem C9_malformed_payload (serverPk : String) (parse : String → Option LookupRequest)
    (lookup : String → Except String LookupResult) (e : NEvent) (rest : List NEvent)
    (req_id : String)
    (hk : e.kind = BALANCEBRIDGE_REQUEST_KIND)
    (hp : has_tag e "p" serverPk = true)
    (hr : get_tag e "req" = some req_id)
    (hj : parse e.content = none) :
    handle_event serverPk parse lookup e = [send_error serverPk e.pubkey req_id "invalid_json"]
    ∧ process_events serverPk parse lookup (e :: rest) =
        send_error serverPk e.pubkey req_id "invalid_json"
          :: process_events serverPk parse lookup rest := by
  have h : handle_event serverPk parse lookup e
      = [send_error serverPk e.pubkey req_id "invalid_json"] := by
    unfold handle_event
    rw [hk, hp, hr, hj]
    simp [BALANCEBRIDGE_REQUEST_KIND]
  refine ⟨h, ?_⟩
  rw [process_events, h]
  rfl

theorem C9_witness :
    handle_event "srv9" parse9 lookup9 e9 = [send_error "srv9" "bob" "r9" "invalid_json"]
    ∧ process_events "srv9" parse9 lookup9 [e9, e4] =
        send_error "srv9" "bob" "r9" "invalid_json" :: process_events "srv9" parse9 lookup9 [e4] :=
  C9_malformed_payload "srv9" parse9 lookup9 e9 [e4] "r9" rfl rfl rfl rfl

/-! ### C10 — capacity-1 gate mutual exclusion -/

/-- The inductive invariant of the gate system: at most one task is inside
its backend RPC sequence, and a free permit means no task is inside one. -/
def SysInv (s : Sys) : Prop :=
  (∀ i j, isCritical (s.tasks i) = true → isCritical (s.tasks j) = true → i = j)
  ∧ (s.gateFree = true → ∀ i, isCritical (s.tasks i) = false)

lemma sysInv_init : SysInv SysInit := by
  constructor
  · intro i j hi _
    simp [SysInit, isCritical] at hi
  · intro _ i
    rfl

lemma isCritical_update (f : Nat → Phase) (i : Nat) (p : Phase) (j : Nat) :
    isCritical (Function.update f i p j) = if j = i then isCritical p else isCritical (f j) := by
  by_cases h : j = i
  · rw [h, Function.update_same, if_pos rfl]
  · rw [Function.update_noteq h, if_neg h]

lemma sysInv_step {s s' : Sys} (hstep : Step s s') (hinv : SysInv s) : SysInv s' := by
  obtain ⟨hone, hfree⟩ := hinv
  cases hstep with
  | start i h =>
    constructor
    · intro a b ha hb
      rw [isCritical_update] at ha hb
      by_cases hai : a = i
      · rw [if_pos hai] at ha; simp [isCritical] at ha
      · by_cases hbi : b = i
        · rw [if_pos hbi] at hb; simp [isCritical] at hb
        · rw [if_neg hai] at ha; rw [if_neg hbi] at hb; exact hone a b ha hb
    · intro hg a
      rw [isCritical_update]
      by_cases hai : a = i
      · rw [if_pos hai]; rfl
      · rw [if_neg hai]; exact hfree hg a
  | failFast i h =>
    constructor
    · intro a b ha hb
      rw [isCritical_update] at ha hb
      by_cases hai : a = i
      · rw [if_pos hai] at ha; simp [isCritical] at ha
      · by_cases hbi : b = i
        · rw [if_pos hbi] at hb; simp [isCritical] at hb
        · rw [if_neg hai] at ha; rw [if_neg hbi] at hb; exact hone a b ha hb
    · intro hg a
      rw [isCritical_update]
      by_cases hai : a = i
      · rw [if_pos hai]; rfl
      · rw [if_neg hai]; exact hfree hg a
  | acquire i k h hg =>
    constructor
    · intro a b ha hb
      rw [isCritical_update] at ha hb
      by_cases hai : a = i
      · by_cases hbi : b = i
        · rw [hai, hbi]
        · rw [if_neg hbi] at hb
          have := hfree hg b
          rw [this] at hb
          exact absurd hb (by simp)
      · rw [if_neg hai] at ha
        have := hfree hg a
        rw [this] at ha
        exact absurd ha (by simp)
    · intro hg2
      simp at hg2
  | call i k h =>
    have hginv : s.gateFree = false := by
      cases hgf : s.gateFree
      · rfl
      · have := hfree hgf i
        rw [h] at this
        simp [isCritical] at this
    constructor
    · intro a b ha hb
      rw [isCritical_update] at ha hb
      by_cases hai : a = i
      · by_cases hbi : b = i
        · rw [hai, hbi]
        · rw [if_neg hbi] at hb
          rw [hai]
          exact hone i b (by rw [h]; rfl) hb
      · rw [if_neg hai] at ha
        by_cases hbi : b = i
        · rw [hbi]
          exact hone a i ha (by rw [h]; rfl)
        · rw [if_neg hbi] at hb
          exact hone a b ha hb
    · intro hg2
      rw [hginv] at hg2
      simp at hg2
  | release i k h =>
    constructor
    · intro a b ha hb
      rw [isCritical_update] at ha hb
      by_cases hai : a = i
      · rw [if_pos hai] at ha; simp [isCritical] at ha
      · by_cases hbi : b = i
        · rw [if_pos hbi] at hb; simp [isCritical] at hb
        · rw [if_neg hai] at ha; rw [if_neg hbi] at hb; exact hone a b ha hb
    · intro _ a
      rw [isCritical_update]
      by_cases hai : a = i
      · rw [if_pos hai]; rfl
      · rw [if_neg hai]
        cases hca : isCritical (s.tasks a)
        · rfl
        · exact absurd (hone a i hca (by rw [h]; rfl)) hai

lemma reachable_inv (s : Sys) (h : Reachable s) : SysInv s := by
  induction h with
  | refl => exact sysInv_init
  | tail hsteps hstep ih => exact sysInv_step hstep ih

/-- C10: in every reachable interleaving of gated lookups, any two tasks
that are inside a backend RPC sequence coincide (at most one sequence is in
flight system-wide), and whenever some task is inside its sequence the
single permit is held (not free) - so the physical calls of distinct
lookups can never overlap. -/
theorem C10_single_flight_gate (s : Sys) (h : Reachable s) :
    (∀ i j, isCritical (s.tasks i) = true → isCritical (s.tasks j) = true → i = j)
    ∧ (∀ i, isCritical (s.tasks i) = true → s.gateFree = false) := by
  obtain ⟨hone, hfree⟩ := reachable_inv s h
  refine ⟨hone, ?_⟩
  intro i hi
  cases hgf : s.gateFree
  · rfl
  · have := hfree hgf i
    rw [this] at hi
    exact absurd hi (by simp)

/-- Intermediate state of the C10 witness run: task 0 started. -/
def sys1 : Sys := ⟨true, Function.update (fun _ => Phase.idle) 0 .waiting⟩

/-- Final state of the C10 witness run: task 0 holds the permit with two
backend calls pending. -/
def sys2 : Sys :=
  ⟨false, Function.update (Function.update (fun _ => Phase.idle) 0 Phase.waiting) 0
    (Phase.critical 2)⟩

lemma reachable_sys2 : Reachable sys2 := by
  have h1 : Step SysInit sys1 := Step.start SysInit 0 rfl
  have h2 : Step sys1 sys2 := Step.acquire sys1 0 2 (by decide) rfl
  exact Relation.ReflTransGen.tail (Relation.ReflTransGen.tail Relation.ReflTransGen.refl h1) h2

theorem C10_witness :
    isCritical (sys2.tasks 0) = true ∧ sys2.gateFree = false :=
  ⟨by decide, (C10_single_flight_gate sys2 reachable_sys2).2 0 (by decide)⟩

end BalanceBridge
